import Mathlib

/-!
Verification development for the linksnip click-analytics pipeline and
per-IP rate limiter.

The definitions below are a shallow embedding of the JavaScript source:

- backend/src/services/AnalyticsService.js  (anonymizer, user-agent parser,
  referrer extraction, recordClick, aggregate updates, analytics queries,
  popular URLs)
- middleware/rateLimiter.js                 (RateLimiter.checkLimit and the
  Express middleware wrapper)
- routes/analyticsRoutes.js                 (the popular-links route handler)

JavaScript strings are modelled as Lean String values, with the character
level operations (split on a character, substring containment) defined over
the underlying character list so that they evaluate by kernel reduction.
Timestamps (JS Date values / Date.now()) are modelled as Nat milliseconds.
Databases (the Mongo collections behind the Url and ClickEvent models) are
modelled as in-memory lists; findOne returns the first matching document and
saving a document replaces the first document with the same short code.
-/

/-! ### JavaScript string primitives -/

/-- Model of JS String.prototype.includes for a substring pattern. -/
def jsIncludes (s pat : String) : Bool := decide (pat.toList <:+: s.toList)

/-- Split a character list on a separator character, JS split semantics:
the empty list yields one empty field, separators at the ends produce empty
fields. -/
def splitOnChar (c : Char) : List Char → List (List Char)
  | [] => [[]]
  | x :: xs =>
    match splitOnChar c xs with
    | [] => [[]]
    | h :: t => if x = c then [] :: h :: t else (x :: h) :: t

/-- Model of JS String.prototype.split with a single-character separator. -/
def jsSplit (s : String) (c : Char) : List String :=
  (splitOnChar c s.toList).map List.asString

/-- Model of JS String.prototype.includes for a single character. -/
def jsContainsChar (s : String) (c : Char) : Bool := s.toList.contains c

/-! ### EventAnonymizer: AnalyticsService._anonymizeIp, _parseUserAgent,
_extractReferrer -/

/-- Embedding of AnalyticsService._anonymizeIp: mask the last IPv4 octet with
the sentinel "xxx"; keep the first four IPv6 groups and append four sentinel
groups; otherwise (or on a falsy input) return "unknown". -/
def anonymizeIp (ip : String) : String :=
  if ip = "" then "unknown"
  else
    let ipv4Parts := jsSplit ip '.'
    if ipv4Parts.length = 4 then
      ipv4Parts.getD 0 "" ++ "." ++ ipv4Parts.getD 1 "" ++ "." ++
        ipv4Parts.getD 2 "" ++ ".xxx"
    else if jsContainsChar ip ':' then
      let ipv6Parts := jsSplit ip ':'
      if 4 ≤ ipv6Parts.length then
        String.intercalate ":" (ipv6Parts.take 4) ++ ":xxxx:xxxx:xxxx:xxxx"
      else "unknown"
    else "unknown"

/-- Embedding of AnalyticsService._parseUserAgent: ordered substring checks;
returns the (browser, os) pair. -/
def parseUserAgent (userAgent : String) : String × String :=
  if userAgent = "" then ("Unknown", "Unknown")
  else
    let browser :=
      if jsIncludes userAgent "Edg/" then "Edge"
      else if jsIncludes userAgent "Chrome/" then "Chrome"
      else if jsIncludes userAgent "Firefox/" then "Firefox"
      else if jsIncludes userAgent "Safari/" && !jsIncludes userAgent "Chrome" then "Safari"
      else if jsIncludes userAgent "Opera/" || jsIncludes userAgent "OPR/" then "Opera"
      else "Unknown"
    let os :=
      if jsIncludes userAgent "Windows NT" then "Windows"
      else if jsIncludes userAgent "Mac OS X" then "macOS"
      else if jsIncludes userAgent "Linux" then "Linux"
      else if jsIncludes userAgent "Android" then "Android"
      else if jsIncludes userAgent "iPhone" || jsIncludes userAgent "iPad" then "iOS"
      else "Unknown"
    (browser, os)

/-- Embedding of AnalyticsService._extractReferrer. The Node "new URL" parser
is an external platform collaborator; it is passed in as a function returning
the hostname on success and none on a parse failure. -/
def extractReferrer (parseHost : String → Option String) (referrer : String) : String :=
  if referrer = "" then "direct"
  else
    match parseHost referrer with
    | some host => host
    | none => "direct"

/-! ### RateLimiter (middleware/rateLimiter.js)

The store (a Map from client IP to a count/resetTime record) is modelled as a
function from keys to optional records.  Client-key extraction from the HTTP
request (_getClientIp) is orthogonal to the claims and is not modelled: the
key is passed in directly. -/

/-- Per-key window record: the value type of the rate limiter store. -/
structure LimitRecord where
  count : Nat
  resetTime : Nat
deriving DecidableEq

/-- Result of RateLimiter.checkLimit.  The remaining field is an Int because
the fresh-window branch of the JS returns maxRequests - 1 unclamped (which is
-1 when maxRequests = 0), while the increment branch clamps at 0. -/
structure LimitInfo where
  allowed : Bool
  remaining : Int
  resetTime : Nat
deriving DecidableEq

/-- The rate limiter store, keyed by client IP. -/
def LimitStore : Type := String → Option LimitRecord

/-- Embedding of RateLimiter.checkLimit: fresh window when no record exists or
the stored window has expired (now at or past resetTime); otherwise increment
the count and report allowed iff count stays at or below maxRequests. -/
def checkLimit (windowMs maxRequests now : Nat) (ip : String) (store : LimitStore) :
    LimitInfo × LimitStore :=
  let fresh : LimitInfo × LimitStore :=
    (⟨true, (maxRequests : Int) - 1, now + windowMs⟩,
     fun k => if k = ip then some ⟨1, now + windowMs⟩ else store k)
  match store ip with
  | none => fresh
  | some record =>
    if record.resetTime ≤ now then fresh
    else
      (⟨decide (record.count + 1 ≤ maxRequests),
        max 0 ((maxRequests : Int) - (record.count + 1)),
        record.resetTime⟩,
       fun k => if k = ip then some ⟨record.count + 1, record.resetTime⟩ else store k)

/-- Result observed by a request passing through the rate limiter middleware:
whether it was allowed, the checkLimit info when the limiter ran, and the
Retry-After value (in whole seconds) set on denial. -/
structure MWResult where
  allowed : Bool
  info : Option LimitInfo
  retryAfter : Option Nat
deriving DecidableEq

/-- Math.ceil(ms / 1000) for a nonnegative millisecond count. -/
def ceilSecs (ms : Nat) : Nat := (ms + 999) / 1000

/-- Embedding of RateLimiter.middleware for one request with client key ip:
skip entirely when disabled or maxRequests is 0 (JS: maxRequests <= 0;
nonnegative here), otherwise consult checkLimit; on denial compute the
Retry-After header value ceil((resetTime - now) / 1000). -/
def middleware (enabled : Bool) (windowMs maxRequests now : Nat) (ip : String)
    (store : LimitStore) : MWResult × LimitStore :=
  if !enabled || maxRequests = 0 then (⟨true, none, none⟩, store)
  else
    let r := checkLimit windowMs maxRequests now ip store
    if r.1.allowed then (⟨true, some r.1, none⟩, r.2)
    else (⟨false, some r.1, some (ceilSecs (r.1.resetTime - now))⟩, r.2)

/-- Store contents after n requests for key ip, the i-th arriving at time t i. -/
def mwStore (enabled : Bool) (windowMs maxRequests : Nat) (ip : String) (t : Nat → Nat)
    (store0 : LimitStore) : Nat → LimitStore
  | 0 => store0
  | n + 1 =>
    (middleware enabled windowMs maxRequests (t n) ip
      (mwStore enabled windowMs maxRequests ip t store0 n)).2

/-- Middleware result of the (n+1)-th request (index n) for key ip. -/
def mwResult (enabled : Bool) (windowMs maxRequests : Nat) (ip : String) (t : Nat → Nat)
    (store0 : LimitStore) (n : Nat) : MWResult :=
  (middleware enabled windowMs maxRequests (t n) ip
    (mwStore enabled windowMs maxRequests ip t store0 n)).1

/-! ### Analytics data model (models/Url.js analytics subdocument and
models/ClickEvent.js) -/

/-- Embedding of a ClickEvent document. -/
structure ClickEvent where
  shortCode : String
  timestamp : Nat
  anonymizedIp : String
  browser : String
  os : String
  referrer : String
deriving DecidableEq

/-- An entry of the topReferrers list: source host and count. -/
structure RefEntry where
  source : String
  count : Nat
deriving DecidableEq

/-- An entry of the clicksByDay list: date at midnight and count. -/
structure DayEntry where
  date : Nat
  count : Nat
deriving DecidableEq

/-- Embedding of the analytics subdocument of a Url document. -/
structure UrlAnalytics where
  totalClicks : Nat
  uniqueVisitors : Nat
  lastClickAt : Option Nat
  topReferrers : List RefEntry
  clicksByDay : List DayEntry
deriving DecidableEq

/-- Embedding of a Url document (the fields the analytics subsystem touches). -/
structure UrlDoc where
  shortCode : String
  originalUrl : String
  isActive : Bool
  clicks : Nat
  createdAt : Nat
  analytics : UrlAnalytics
deriving DecidableEq

/-- The database state: the Url collection and the ClickEvent collection. -/
structure DB where
  urls : List UrlDoc
  events : List ClickEvent
deriving DecidableEq

/-- Url.findOne for a short code: first matching document. -/
def findUrl (urls : List UrlDoc) (sc : String) : Option UrlDoc :=
  urls.find? fun u => u.shortCode == sc

/-- Mongoose document save: replace the first document carrying the saved
document's short code. -/
def saveUrl : List UrlDoc → UrlDoc → List UrlDoc
  | [], _ => []
  | u :: us, d => if u.shortCode == d.shortCode then d :: us else u :: saveUrl us d

/-! ### Sorting relations used by the aggregate updates and queries, matching
the JS comparator functions (all sorts in the source are stable descending
sorts, modelled with Mathlib insertion sort, which is stable). -/

/-- Descending-by-count order on referrer entries (JS (a, b) => b.count - a.count). -/
def refDescByCount (a b : RefEntry) : Prop := b.count ≤ a.count

instance : DecidableRel refDescByCount := fun _ b => Nat.decLe b.count _

instance : IsTrans RefEntry refDescByCount := ⟨fun _ _ _ h1 h2 => Nat.le_trans h2 h1⟩

instance : IsTotal RefEntry refDescByCount := ⟨fun a b => Nat.le_total b.count a.count⟩

/-- Descending-by-date order on day entries (JS (a, b) => b.date - a.date). -/
def dayDescByDate (a b : DayEntry) : Prop := b.date ≤ a.date

instance : DecidableRel dayDescByDate := fun _ b => Nat.decLe b.date _

instance : IsTrans DayEntry dayDescByDate := ⟨fun _ _ _ h1 h2 => Nat.le_trans h2 h1⟩

instance : IsTotal DayEntry dayDescByDate := ⟨fun a b => Nat.le_total b.date a.date⟩

/-- Descending-by-timestamp order on click events (query sort timestamp: -1). -/
def evDescByTime (a b : ClickEvent) : Prop := b.timestamp ≤ a.timestamp

instance : DecidableRel evDescByTime := fun _ b => Nat.decLe b.timestamp _

instance : IsTrans ClickEvent evDescByTime := ⟨fun _ _ _ h1 h2 => Nat.le_trans h2 h1⟩

instance : IsTotal ClickEvent evDescByTime := ⟨fun a b => Nat.le_total b.timestamp a.timestamp⟩

/-- Descending order on Url documents by aggregated total clicks
(query sort analytics.totalClicks: -1). -/
def urlDescByClicks (a b : UrlDoc) : Prop :=
  b.analytics.totalClicks ≤ a.analytics.totalClicks

instance : DecidableRel urlDescByClicks := fun _ b => Nat.decLe b.analytics.totalClicks _

instance : IsTrans UrlDoc urlDescByClicks := ⟨fun _ _ _ h1 h2 => Nat.le_trans h2 h1⟩

instance : IsTotal UrlDoc urlDescByClicks :=
  ⟨fun a b => Nat.le_total b.analytics.totalClicks a.analytics.totalClicks⟩

/-! ### Aggregate updates (AnalyticsService._updateTopReferrers,
_updateClicksByDay, _updateAggregatedStats) -/

/-- Milliseconds per day. -/
def dayMs : Nat := 86400000

/-- Date truncated to midnight (JS setHours(0,0,0,0); modelled at UTC, the
timezone offset being a constant shift that no claim observes). -/
def truncToDay (t : Nat) : Nat := t / dayMs * dayMs

/-- Find-and-increment step of _updateTopReferrers: bump the count of the
first entry matching the referrer in place, or push a fresh (referrer, 1)
entry at the end. -/
def bumpReferrer : List RefEntry → String → List RefEntry
  | [], ref => [⟨ref, 1⟩]
  | e :: es, ref =>
    if e.source == ref then ⟨e.source, e.count + 1⟩ :: es
    else e :: bumpReferrer es ref

/-- Embedding of _updateTopReferrers on the topReferrers list: bump, sort
descending by count (stable), keep the top 10. -/
def updateTopReferrers (l : List RefEntry) (ref : String) : List RefEntry :=
  (List.insertionSort refDescByCount (bumpReferrer l ref)).take 10

/-- Find-and-increment step of _updateClicksByDay: bump the count of the
entry for the given day in place, or push a fresh (day, 1) entry at the end. -/
def bumpDay : List DayEntry → Nat → List DayEntry
  | [], d => [⟨d, 1⟩]
  | e :: es, d =>
    if e.date == d then ⟨e.date, e.count + 1⟩ :: es
    else e :: bumpDay es d

/-- Embedding of _updateClicksByDay on the clicksByDay list: bump the day
bucket of the timestamp, sort descending by date (stable), keep 30 entries. -/
def updateClicksByDay (l : List DayEntry) (ts : Nat) : List DayEntry :=
  (List.insertionSort dayDescByDate (bumpDay l (truncToDay ts))).take 30

/-- The in-memory mutation performed by _updateAggregatedStats on the found
Url document's analytics subdocument: increment totalClicks, set lastClickAt,
recompute uniqueVisitors as the number of distinct anonymized IPs among all
stored click events for the short code, and update the two capped lists. -/
def computeAnalytics (a : UrlAnalytics) (events : List ClickEvent) (sc ref : String)
    (ts : Nat) : UrlAnalytics :=
  { totalClicks := a.totalClicks + 1
    lastClickAt := some ts
    uniqueVisitors :=
      ((events.filter fun e => e.shortCode == sc).map ClickEvent.anonymizedIp).dedup.length
    topReferrers := updateTopReferrers a.topReferrers ref
    clicksByDay := updateClicksByDay a.clicksByDay ts }

/-- Embedding of _updateAggregatedStats (conflict-free path): read the Url
document, recompute its analytics, save it; a missing document is a no-op. -/
def updateAggregatedStats (db : DB) (sc ref : String) (ts : Nat) : DB :=
  match findUrl db.urls sc with
  | none => db
  | some u =>
    ⟨saveUrl db.urls { u with analytics := computeAnalytics u.analytics db.events sc ref ts },
     db.events⟩

/-- Raw visit context passed to recordClick (any field may be empty, the JS
arguments being possibly undefined and defaulted with || to the empty string). -/
structure ClickData where
  ip : String
  userAgent : String
  referrer : String
deriving DecidableEq

/-- Embedding of AnalyticsService.recordClick (conflict-free path): no-op when
the short code resolves to no Url document; otherwise anonymize the context,
append a ClickEvent, and update the aggregated stats. -/
def recordClick (parseHost : String → Option String) (db : DB) (sc : String)
    (d : ClickData) (now : Nat) : DB :=
  match findUrl db.urls sc with
  | none => db
  | some _ =>
    let anonIp := anonymizeIp d.ip
    let bo := parseUserAgent d.userAgent
    let ref := extractReferrer parseHost d.referrer
    let ev : ClickEvent := ⟨sc, now, anonIp, bo.1, bo.2, ref⟩
    updateAggregatedStats ⟨db.urls, db.events ++ [ev]⟩ sc ref now

/-- Iterated recordClick: one call per (context, timestamp) pair, in order. -/
def recordClickN (parseHost : String → Option String) (db : DB) (sc : String) :
    List (ClickData × Nat) → DB
  | [] => db
  | (d, t) :: rest => recordClickN parseHost (recordClick parseHost db sc d t) sc rest

/-! ### Read-side queries (AnalyticsService.getUrlAnalytics, getPopularUrls)
and the popular-links route handler -/

/-- A (name, count) tally entry used by the query-side aggregations
(referrers, browsers, operating systems in getUrlAnalytics). -/
structure NameCount where
  name : String
  count : Nat
deriving DecidableEq

/-- Descending-by-count order on tally entries (JS (a, b) => b.count - a.count). -/
def nameDescByCount (a b : NameCount) : Prop := b.count ≤ a.count

instance : DecidableRel nameDescByCount := fun _ b => Nat.decLe b.count _

instance : IsTrans NameCount nameDescByCount := ⟨fun _ _ _ h1 h2 => Nat.le_trans h2 h1⟩

instance : IsTotal NameCount nameDescByCount := ⟨fun a b => Nat.le_total b.count a.count⟩

/-- One step of building a JS counts object: increment the entry for the key
in place (objects keep insertion order) or append a fresh (key, 1) entry. -/
def bumpCount : List NameCount → String → List NameCount
  | [], k => [⟨k, 1⟩]
  | e :: es, k =>
    if e.name == k then ⟨e.name, e.count + 1⟩ :: es
    else e :: bumpCount es k

/-- The counts-object-then-Object.entries-then-sort-then-slice pattern used
three times in getUrlAnalytics: tally the keys in first-occurrence order,
sort descending by count (stable), keep the top 10. -/
def topOf (keys : List String) : List NameCount :=
  (List.insertionSort nameDescByCount (keys.foldl bumpCount [])).take 10

/-- The analytics payload returned by getUrlAnalytics for an existing link. -/
structure AnalyticsResult where
  shortCode : String
  originalUrl : String
  totalClicks : Nat
  uniqueVisitors : Nat
  clickHistory : List DayEntry
  topReferrers : List NameCount
  topBrowsers : List NameCount
  topOS : List NameCount
  lastClickAt : Option Nat
deriving DecidableEq

/-- The Mongo range condition on event timestamps built by getUrlAnalytics:
$gte startDate when present, $lte endDate when present, both inclusive; an
absent bound leaves that side unconstrained. -/
def inRange (startDate endDate : Option Nat) (ts : Nat) : Bool :=
  (match startDate with
   | some s => decide (s ≤ ts)
   | none => true)
  &&
  (match endDate with
   | some e => decide (ts ≤ e)
   | none => true)

/-- Embedding of AnalyticsService.getUrlAnalytics: none for an unknown short
code; otherwise filter the click events by short code and optional time range,
sort them descending by timestamp, and compute every payload field from the
filtered event list. -/
def getUrlAnalytics (db : DB) (sc : String) (startDate endDate : Option Nat) :
    Option AnalyticsResult :=
  match findUrl db.urls sc with
  | none => none
  | some u =>
    let clickEvents :=
      List.insertionSort evDescByTime
        (db.events.filter fun e => e.shortCode == sc && inRange startDate endDate e.timestamp)
    some
      { shortCode := sc
        originalUrl := u.originalUrl
        totalClicks := clickEvents.length
        uniqueVisitors := (clickEvents.map ClickEvent.anonymizedIp).dedup.length
        clickHistory :=
          (List.insertionSort dayDescByDate
            ((clickEvents.map fun e => truncToDay e.timestamp).foldl bumpDay [])).take 30
        topReferrers :=
          topOf (clickEvents.map fun e => if e.referrer = "" then "direct" else e.referrer)
        topBrowsers :=
          topOf (clickEvents.map fun e => if e.browser = "" then "Unknown" else e.browser)
        topOS :=
          topOf (clickEvents.map fun e => if e.os = "" then "Unknown" else e.os)
        lastClickAt := clickEvents.head?.map ClickEvent.timestamp }

/-- An entry of the getPopularUrls response. -/
structure PopularEntry where
  shortCode : String
  originalUrl : String
  clicks : Nat
  totalClicks : Nat
  uniqueVisitors : Nat
  createdAt : Nat
deriving DecidableEq

/-- Embedding of AnalyticsService.getPopularUrls: active links sorted
descending by aggregated totalClicks, cut to the limit (Mongo limit(0) means
no limit), projected to the response shape. -/
def getPopularUrls (db : DB) (limit : Nat) : List PopularEntry :=
  let sorted := List.insertionSort urlDescByClicks (db.urls.filter fun u => u.isActive)
  let urls := if limit = 0 then sorted else sorted.take limit
  urls.map fun u =>
    ⟨u.shortCode, u.originalUrl, u.clicks, u.analytics.totalClicks,
     u.analytics.uniqueVisitors, u.createdAt⟩

/-- Embedding of the GET /api/analytics/popular handler: an absent limit query
parameter defaults to 10, a supplied one is passed through to the service
unchanged. -/
def popularRoute (db : DB) (limitParam : Option Nat) : List PopularEntry :=
  getPopularUrls db (limitParam.getD 10)

/-! ### Failure containment model for recordClick (claim C7)

Persistence faults are injected at the save points: the ClickEvent save and
the successive Url document save attempts inside _updateAggregatedStats
(attempt 0 is the first save, attempt 1 the save inside the VersionError
retry).  A computation returns the database state actually persisted together
with the error escaping it, if any. -/

/-- A JS exception as discriminated by the source: a Mongoose VersionError or
any other error. -/
inductive JsErr where
  | versionErr : JsErr
  | otherErr : String → JsErr
deriving DecidableEq

/-- Fault injection for one recordClick call. -/
structure Faults where
  eventSave : Option JsErr
  aggSave : Nat → Option JsErr

/-- Embedding of _updateAggregatedStats with injected save faults: the first
read-modify-write persists unless aggSave 0 faults; a VersionError there is
caught, the document re-read and the update recomputed and saved once more
(aggSave 1); any error of the retry, and any non-VersionError of the first
attempt, escapes. -/
def updateAggregatedStatsF (f : Nat → Option JsErr) (db : DB) (sc ref : String)
    (ts : Nat) : DB × Option JsErr :=
  match findUrl db.urls sc with
  | none => (db, none)
  | some u =>
    match f 0 with
    | none =>
      (⟨saveUrl db.urls { u with analytics := computeAnalytics u.analytics db.events sc ref ts },
        db.events⟩, none)
    | some JsErr.versionErr =>
      match findUrl db.urls sc with
      | none => (db, none)
      | some u2 =>
        match f 1 with
        | none =>
          (⟨saveUrl db.urls
              { u2 with analytics := computeAnalytics u2.analytics db.events sc ref ts },
            db.events⟩, none)
        | some e2 => (db, some e2)
    | some (JsErr.otherErr m) => (db, some (JsErr.otherErr m))

/-- Embedding of the body of recordClick (the inside of its try block) with
injected faults: no-op for an unknown short code; a ClickEvent save fault
escapes before anything is persisted; otherwise the event is appended and the
aggregate update runs with its own fault points. -/
def recordClickF (parseHost : String → Option String) (f : Faults) (db : DB)
    (sc : String) (d : ClickData) (now : Nat) : DB × Option JsErr :=
  match findUrl db.urls sc with
  | none => (db, none)
  | some _ =>
    let anonIp := anonymizeIp d.ip
    let bo := parseUserAgent d.userAgent
    let ref := extractReferrer parseHost d.referrer
    let ev : ClickEvent := ⟨sc, now, anonIp, bo.1, bo.2, ref⟩
    match f.eventSave with
    | some e => (db, some e)
    | none => updateAggregatedStatsF f.aggSave ⟨db.urls, db.events ++ [ev]⟩ sc ref now

/-- Embedding of recordClick as seen by its caller: the try/catch wrapper logs
and swallows any error escaping the body, so the caller always observes a
normal return with the state persisted so far. -/
def recordClickTop (parseHost : String → Option String) (f : Faults) (db : DB)
    (sc : String) (d : ClickData) (now : Nat) : Except JsErr DB :=
  match recordClickF parseHost f db sc d now with
  | (db2, some _) => Except.ok db2
  | (db2, none) => Except.ok db2

/-- Fault assignment with no injected faults. -/
def noFaults : Faults := ⟨none, fun _ => none⟩

/-! ### Concrete fixtures used by witnesses and counterexamples -/

/-- Zeroed analytics subdocument (the state of a freshly created link). -/
def freshAnalytics : UrlAnalytics := ⟨0, 0, none, [], []⟩

/-- A freshly created active link with short code "abc". -/
def abcUrl : UrlDoc := ⟨"abc", "https://example.com/a", true, 0, 0, freshAnalytics⟩

/-- A database with the single fresh link "abc" and no click events. -/
def abcDB : DB := ⟨[abcUrl], []⟩

/-- Three click contexts whose IPs mask to [a, a, b]: 1.2.3.4 and 1.2.3.7 both
mask to 1.2.3.xxx, and 9.8.7.6 masks to 9.8.7.xxx. -/
def aabCalls : List (ClickData × Nat) :=
  [(⟨"1.2.3.4", "", ""⟩, 1000), (⟨"1.2.3.7", "", ""⟩, 2000), (⟨"9.8.7.6", "", ""⟩, 3000)]

/-- An anonymous active link with zeroed analytics. -/
def plainUrl : UrlDoc := ⟨"", "", true, 0, 0, freshAnalytics⟩

/-- A database holding 101 active links, for probing the popular-links limit. -/
def manyUrlsDB : DB := ⟨List.replicate 101 plainUrl, []⟩

/-- A user agent containing the Safari token together with the bare word
Chrome (no slash) and the Opera token OPR/. -/
def safariOperaUA : String := "Mozilla/5.0 Safari/605.1 Chrome OPR/99"

/-! ### Theorems -/

/-- C3: for every well-formed IPv4 string (exactly 4 dot-separated segments),
anonymizeIp returns the string with exactly the last dotted segment replaced
by the fixed 3-character sentinel "xxx" and the first three segments preserved
verbatim; any input that is neither a 4-part dotted string nor a
colon-containing string with at least 4 groups yields the literal "unknown". -/
theorem anonymizeIp_mask_spec (ip a b c d : String) :
    (jsSplit ip '.' = [a, b, c, d] →
      anonymizeIp ip = a ++ "." ++ b ++ "." ++ c ++ ".xxx") ∧
    String.length "xxx" = 3 ∧
    ((jsSplit ip '.').length ≠ 4 →
      ¬(jsContainsChar ip ':' = true ∧ 4 ≤ (jsSplit ip ':').length) →
      anonymizeIp ip = "unknown") := by
  refine ⟨?_, rfl, ?_⟩
  · intro h
    have hne : ip ≠ "" := by
      intro he
      rw [he] at h
      have : jsSplit "" '.' = [""] := by decide
      rw [this] at h
      exact absurd (congrArg List.length h) (by simp)
    simp only [anonymizeIp, if_neg hne, h]
    simp
  · intro h4 hnot
    by_cases hip : ip = ""
    · rw [hip]; decide
    · simp only [anonymizeIp, if_neg hip, if_neg h4]
      by_cases hc : jsContainsChar ip ':' = true
      · have hlen : ¬(4 ≤ (jsSplit ip ':').length) := fun hl => hnot ⟨hc, hl⟩
        simp [hc, hlen]
      · simp [hc]

/-- C3 witness: concrete instances of both implications. -/
theorem anonymizeIp_mask_spec_witness :
    anonymizeIp "203.0.113.195" = "203" ++ "." ++ "0" ++ "." ++ "113" ++ ".xxx" ∧
    anonymizeIp "hello" = "unknown" :=
  ⟨(anonymizeIp_mask_spec "203.0.113.195" "203" "0" "113" "195").1 (by decide),
   (anonymizeIp_mask_spec "hello" "" "" "" "").2.2 (by decide) (by decide)⟩

/-- C10 counterexample: a user-agent string that contains the Safari token
"Safari/" (together with the bare word "Chrome" and the Opera token "OPR/")
and is nevertheless classified as "Opera", refuting the claim that the Opera
branch is reachable only for strings matching none of the Edge, Chrome,
Firefox, or Safari tokens. -/
theorem parseUserAgent_opera_counterexample :
    jsIncludes safariOperaUA "Safari/" = true ∧
    (parseUserAgent safariOperaUA).1 = "Opera" := by decide

/-- C10 amended: for every user-agent string containing "Chrome/", the parser
returns "Chrome" (or "Edge" when "Edg/" is also present) and never "Opera",
even when the Opera token "OPR/" is also present; the Opera branch is
reachable only for strings containing none of the "Edg/", "Chrome/",
"Firefox/" tokens, failing the Safari branch condition (which requires
"Safari/" present and the bare word "Chrome" absent), and containing
"Opera/" or "OPR/". -/
theorem parseUserAgent_browser_precedence (ua : String) :
    (jsIncludes ua "Chrome/" = true →
      (parseUserAgent ua).1 = (if jsIncludes ua "Edg/" then "Edge" else "Chrome") ∧
      (parseUserAgent ua).1 ≠ "Opera") ∧
    ((parseUserAgent ua).1 = "Opera" →
      jsIncludes ua "Edg/" = false ∧ jsIncludes ua "Chrome/" = false ∧
      jsIncludes ua "Firefox/" = false ∧
      (jsIncludes ua "Safari/" = false ∨ jsIncludes ua "Chrome" = true) ∧
      (jsIncludes ua "Opera/" = true ∨ jsIncludes ua "OPR/" = true)) := by
  by_cases hua : ua = ""
  · rw [hua]
    exact ⟨fun h => absurd h (by decide), fun h => absurd h (by decide)⟩
  · cases hEdg : jsIncludes ua "Edg/" <;>
    cases hChr : jsIncludes ua "Chrome/" <;>
    cases hFfx : jsIncludes ua "Firefox/" <;>
    cases hSaf : jsIncludes ua "Safari/" <;>
    cases hChrB : jsIncludes ua "Chrome" <;>
    cases hOp : jsIncludes ua "Opera/" <;>
    cases hOPR : jsIncludes ua "OPR/" <;>
      simp [parseUserAgent, hua, hEdg, hChr, hFfx, hSaf, hChrB, hOp, hOPR]

/-- C10 witness: a Chrome-token UA with the Opera token present is classified
Chrome (not Opera), and a plain Opera UA reaches the Opera branch with no
Chrome token present. -/
theorem parseUserAgent_browser_precedence_witness :
    (parseUserAgent "Mozilla/5.0 Chrome/120.0 Safari/537.36 OPR/106").1 ≠ "Opera" ∧
    jsIncludes "Opera/9.80 (Windows NT)" "Chrome/" = false :=
  ⟨((parseUserAgent_browser_precedence "Mozilla/5.0 Chrome/120.0 Safari/537.36 OPR/106").1
      (by decide)).2,
   ((parseUserAgent_browser_precedence "Opera/9.80 (Windows NT)").2 (by decide)).2.1⟩

/-- Helper: with the limiter enabled, a positive configured max, a fresh key
and every later call landing strictly inside the first call's window, the
stored record for the key after n calls holds count n and the first window's
reset time. -/
theorem mwStore_count (w N : Nat) (ip : String) (t : Nat → Nat) (store0 : LimitStore)
    (hfresh : store0 ip = none) (hN : N ≠ 0) :
    ∀ n, n ≠ 0 → (∀ i, 1 ≤ i → i < n → t i < t 0 + w) →
      mwStore true w N ip t store0 n ip = some ⟨n, t 0 + w⟩ := by
  intro n
  induction n with
  | zero => intro h; exact absurd rfl h
  | succ m ih =>
    intro _ hwin
    by_cases hm : m = 0
    · rw [hm]
      simp [mwStore, middleware, checkLimit, hfresh, hN]
    · have hstore : mwStore true w N ip t store0 m ip = some ⟨m, t 0 + w⟩ :=
        ih hm (fun i h1 h2 => hwin i h1 (Nat.lt_succ_of_lt h2))
      have htm : t m < t 0 + w := hwin m (Nat.one_le_iff_ne_zero.mpr hm) (Nat.lt_succ_self m)
      have hexp : ¬(t 0 + w ≤ t m) := Nat.not_le.mpr htm
      simp only [mwStore, middleware, checkLimit, hstore, hN]
      by_cases hall : m + 1 ≤ N <;> simp [hall, hexp, hN]

/-- C1: with the limiter enabled and maxRequests = N at least 1, for a fresh
key the first N middleware checks (all within the first call's window, time
nondecreasing from the first call) are allowed with remaining strictly
decreasing from N - 1 down to 0, and the (N+1)th check is denied with a
positive Retry-After of at most the configured window length in seconds
(the window being a whole number of seconds). -/
theorem rateLimiter_fixedWindow (w N : Nat) (ip : String) (t : Nat → Nat)
    (store0 : LimitStore) (hfresh : store0 ip = none) (hN : 1 ≤ N)
    (hmono : ∀ i, i ≤ N → t 0 ≤ t i)
    (hwin : ∀ i, 1 ≤ i → i ≤ N → t i < t 0 + w)
    (hdiv : 1000 ∣ w) :
    (∀ i, i < N →
      mwResult true w N ip t store0 i =
        ⟨true, some ⟨true, (N : Int) - 1 - i, t 0 + w⟩, none⟩) ∧
    (mwResult true w N ip t store0 N).allowed = false ∧
    (∃ ra, (mwResult true w N ip t store0 N).retryAfter = some ra ∧
      1 ≤ ra ∧ ra ≤ w / 1000) := by
  have hN0 : N ≠ 0 := Nat.one_le_iff_ne_zero.mp hN
  have hstoreN : mwStore true w N ip t store0 N ip = some ⟨N, t 0 + w⟩ :=
    mwStore_count w N ip t store0 hfresh hN0 N hN0
      (fun i h1 h2 => hwin i h1 (Nat.le_of_lt h2))
  have htN : t N < t 0 + w := hwin N hN (Nat.le_refl N)
  have hnexpN : ¬(t 0 + w ≤ t N) := Nat.not_le.mpr htN
  have hdenyN : ¬(N + 1 ≤ N) := by omega
  refine ⟨?_, ?_, ?_⟩
  · intro i hi
    by_cases hi0 : i = 0
    · subst hi0
      simp only [mwStore, mwResult, middleware, checkLimit, hfresh, hN0]
      simp
    · have h1i : 1 ≤ i := Nat.one_le_iff_ne_zero.mpr hi0
      have hstore : mwStore true w N ip t store0 i ip = some ⟨i, t 0 + w⟩ :=
        mwStore_count w N ip t store0 hfresh hN0 i hi0
          (fun j hj1 hj2 => hwin j hj1 (Nat.le_of_lt (Nat.lt_trans hj2 hi)))
      have hti : t i < t 0 + w := hwin i h1i (Nat.le_of_lt hi)
      have hnexp : ¬(t 0 + w ≤ t i) := Nat.not_le.mpr hti
      have hallow : i + 1 ≤ N := hi
      simp only [mwResult, middleware, checkLimit, hstore, hN0, hnexp]
      simp [hallow]
      omega
  · simp only [mwResult, middleware, checkLimit, hstoreN, hN0, hnexpN]
    simp [hdenyN]
  · obtain ⟨k, rfl⟩ := hdiv
    have ht0N : t 0 ≤ t N := hmono N (Nat.le_refl N)
    refine ⟨ceilSecs (t 0 + 1000 * k - t N), ?_, ?_, ?_⟩
    · simp only [mwResult, middleware, checkLimit, hstoreN, hN0, hnexpN]
      simp [hdenyN]
    · exact (Nat.le_div_iff_mul_le (by norm_num)).mpr (by omega)
    · have hle : t 0 + 1000 * k - t N + 999 ≤ 1000 * k + 999 := by omega
      calc ceilSecs (t 0 + 1000 * k - t N)
          ≤ (1000 * k + 999) / 1000 := Nat.div_le_div_right hle
        _ = k := by rw [Nat.mul_add_div (by norm_num)]; norm_num
        _ = 1000 * k / 1000 := by rw [Nat.mul_div_cancel_left _ (by norm_num)]

/-- C1 witness: concrete run with window 60000 ms and max 2 requests, all
calls at time 0: the third call is denied. -/
theorem rateLimiter_fixedWindow_witness :
    (1000 : Nat) ∣ 60000 ∧
    mwResult true 60000 2 "k" (fun _ => 0) (fun _ => none) 0 =
      ⟨true, some ⟨true, (2 : Int) - 1 - 0, 0 + 60000⟩, none⟩ ∧
    (mwResult true 60000 2 "k" (fun _ => 0) (fun _ => none) 2).allowed = false :=
  ⟨by decide,
   (rateLimiter_fixedWindow 60000 2 "k" (fun _ => 0) (fun _ => none) rfl (by decide)
      (fun i _ => Nat.le_refl 0) (fun i h1 h2 => by norm_num) (by decide)).1 0 (by decide),
   (rateLimiter_fixedWindow 60000 2 "k" (fun _ => 0) (fun _ => none) rfl (by decide)
      (fun i _ => Nat.le_refl 0) (fun i h1 h2 => by norm_num) (by decide)).2.1⟩

/-- C8: when the limiter is disabled or the configured maxRequests is 0,
every middleware check, for any key, any arrival times and any number of
repetitions, passes the request through as allowed, and the store is never
touched. -/
theorem rateLimiter_disabled_passthrough (enabled : Bool) (w maxR : Nat) (ip : String)
    (t : Nat → Nat) (store0 : LimitStore) (h : enabled = false ∨ maxR = 0) :
    ∀ n, mwResult enabled w maxR ip t store0 n = ⟨true, none, none⟩ ∧
      mwStore enabled w maxR ip t store0 n = store0 := by
  have hc : (!enabled || decide (maxR = 0)) = true := by
    rcases h with h | h <;> simp [h]
  intro n
  induction n with
  | zero =>
    constructor
    · simp only [mwResult, mwStore, middleware]
      simp [hc]
    · rfl
  | succ m ih =>
    constructor
    · simp only [mwResult, mwStore, middleware, ih.2]
      simp [hc]
    · simp only [mwStore, middleware, ih.2]
      simp [hc]

/-- C8 witness: a disabled limiter allows the fourth request for a key with
an otherwise empty store. -/
theorem rateLimiter_disabled_passthrough_witness :
    (false = false ∨ (5 : Nat) = 0) ∧
    mwResult false 60000 5 "k" (fun _ => 0) (fun _ => none) 3 = ⟨true, none, none⟩ :=
  ⟨Or.inl rfl,
   ((rateLimiter_disabled_passthrough false 60000 5 "k" (fun _ => 0) (fun _ => none)
      (Or.inl rfl)) 3).1⟩

/-- C4: for a short code resolving to no Url document, recordClick returns
the database unchanged (no new click event, no aggregate mutation), iterated
calls stay a no-op, and the read-side query getUrlAnalytics returns an
explicit not-found result (none), never a success payload of zeros. -/
theorem unknownLink_noop (parseHost : String → Option String) (db : DB) (sc : String)
    (d : ClickData) (now : Nat) (calls : List (ClickData × Nat))
    (startDate endDate : Option Nat) (h : findUrl db.urls sc = none) :
    recordClick parseHost db sc d now = db ∧
    recordClickN parseHost db sc calls = db ∧
    getUrlAnalytics db sc startDate endDate = none := by
  have hrec : ∀ d2 now2, recordClick parseHost db sc d2 now2 = db := by
    intro d2 now2
    simp [recordClick, h]
  refine ⟨hrec d now, ?_, by simp [getUrlAnalytics, h]⟩
  induction calls with
  | nil => rfl
  | cons c rest ih =>
    obtain ⟨d2, t2⟩ := c
    simp only [recordClickN, hrec d2 t2, ih]

/-- C4 witness: a database with one link does not react to a click on a
different short code, and querying that code reports not found. -/
theorem unknownLink_noop_witness :
    findUrl abcDB.urls "zzz" = none ∧
    recordClick (fun _ => none) abcDB "zzz" ⟨"1.2.3.4", "", ""⟩ 7 = abcDB ∧
    getUrlAnalytics abcDB "zzz" none none = none :=
  ⟨by decide,
   (unknownLink_noop (fun _ => none) abcDB "zzz" ⟨"1.2.3.4", "", ""⟩ 7 [] none none
      (by decide)).1,
   (unknownLink_noop (fun _ => none) abcDB "zzz" ⟨"1.2.3.4", "", ""⟩ 7 [] none none
      (by decide)).2.2⟩

/-- Helper: a found document carries the searched short code. -/
theorem findUrl_shortCode {urls : List UrlDoc} {sc : String} {u : UrlDoc}
    (h : findUrl urls sc = some u) : u.shortCode = sc := by
  unfold findUrl at h
  simpa using List.find?_some h

/-- Helper: saving a document with the searched short code over a list in
which that code was found makes the saved document the one found. -/
theorem findUrl_saveUrl {urls : List UrlDoc} {sc : String} {u : UrlDoc} (d : UrlDoc)
    (h : findUrl urls sc = some u) (hd : d.shortCode = sc) :
    findUrl (saveUrl urls d) sc = some d := by
  induction urls with
  | nil => simp [findUrl] at h
  | cons a as ih =>
    by_cases ha : a.shortCode = sc
    · simp [findUrl, saveUrl, ha, hd]
    · have h2 : findUrl as sc = some u := by
        unfold findUrl at h
        rw [List.find?_cons_of_neg] at h
        · exact h
        · simp [ha]
      have ha2 : ¬((a.shortCode == d.shortCode) = true) := by simp [ha, hd]
      unfold saveUrl
      rw [if_neg ha2]
      unfold findUrl
      rw [List.find?_cons_of_neg]
      · exact ih h2
      · simp [ha]

/-- Helper: the explicit result of recordClick when the link exists: the new
click event is appended to the event log and the re-read document is saved
back with its analytics recomputed against the event log including the new
event. -/
theorem recordClick_found (parseHost : String → Option String) (db : DB) (sc : String)
    (d : ClickData) (now : Nat) (u : UrlDoc) (h : findUrl db.urls sc = some u) :
    recordClick parseHost db sc d now =
      ⟨saveUrl db.urls
        { u with analytics := (computeAnalytics u.analytics
            (db.events ++ [⟨sc, now, anonymizeIp d.ip, (parseUserAgent d.userAgent).1,
              (parseUserAgent d.userAgent).2, extractReferrer parseHost d.referrer⟩])
            sc (extractReferrer parseHost d.referrer) now) },
       db.events ++ [⟨sc, now, anonymizeIp d.ip, (parseUserAgent d.userAgent).1,
         (parseUserAgent d.userAgent).2, extractReferrer parseHost d.referrer⟩]⟩ := by
  simp only [recordClick, h, updateAggregatedStats]

/-- Helper: the observable postconditions of one recordClick call on an
existing link. -/
theorem recordClick_step (parseHost : String → Option String) (db : DB) (sc : String)
    (d : ClickData) (now : Nat) (u : UrlDoc) (h : findUrl db.urls sc = some u) :
    ∃ u2, findUrl (recordClick parseHost db sc d now).urls sc = some u2 ∧
      u2.analytics.totalClicks = u.analytics.totalClicks + 1 ∧
      u2.analytics.uniqueVisitors =
        (((recordClick parseHost db sc d now).events.filter
            fun e => e.shortCode == sc).map ClickEvent.anonymizedIp).dedup.length ∧
      u2.analytics.topReferrers =
        updateTopReferrers u.analytics.topReferrers (extractReferrer parseHost d.referrer) ∧
      u2.analytics.clicksByDay = updateClicksByDay u.analytics.clicksByDay now ∧
      ((recordClick parseHost db sc d now).events.filter fun e => e.shortCode == sc) =
        (db.events.filter fun e => e.shortCode == sc) ++
          [⟨sc, now, anonymizeIp d.ip, (parseUserAgent d.userAgent).1,
            (parseUserAgent d.userAgent).2, extractReferrer parseHost d.referrer⟩] := by
  have hsc : u.shortCode = sc := findUrl_shortCode h
  rw [recordClick_found parseHost db sc d now u h]
  refine ⟨_, findUrl_saveUrl _ h (by simpa using hsc), rfl, rfl, rfl, rfl, ?_⟩
  simp [List.filter_append]

/-- C2: each successful recordClick on an existing link increments the
aggregate totalClicks by exactly 1 (so N calls increase it by exactly N), and
after every update uniqueVisitors equals the number of distinct masked
addresses among all stored events for that link (full recomputation); in
particular recording from addresses masking to [a, a, b] on a fresh link
yields totalClicks = 3 and uniqueVisitors = 2. -/
theorem recordEvent_totals :
    (∀ (parseHost : String → Option String) (db : DB) (sc : String) (d : ClickData)
        (now : Nat) (u : UrlDoc), findUrl db.urls sc = some u →
      ∃ u2, findUrl (recordClick parseHost db sc d now).urls sc = some u2 ∧
        u2.analytics.totalClicks = u.analytics.totalClicks + 1 ∧
        u2.analytics.uniqueVisitors =
          (((recordClick parseHost db sc d now).events.filter
              fun e => e.shortCode == sc).map ClickEvent.anonymizedIp).dedup.length) ∧
    (∀ (parseHost : String → Option String) (db : DB) (sc : String)
        (calls : List (ClickData × Nat)) (u : UrlDoc), findUrl db.urls sc = some u →
      ∃ u2, findUrl (recordClickN parseHost db sc calls).urls sc = some u2 ∧
        u2.analytics.totalClicks = u.analytics.totalClicks + calls.length) ∧
    ((findUrl (recordClickN (fun _ => none) abcDB "abc" aabCalls).urls "abc").map
        (fun u => (u.analytics.totalClicks, u.analytics.uniqueVisitors)) = some (3, 2)) := by
  refine ⟨?_, ?_, by decide⟩
  · intro parseHost db sc d now u h
    obtain ⟨u2, h1, h2, h3, _⟩ := recordClick_step parseHost db sc d now u h
    exact ⟨u2, h1, h2, h3⟩
  · intro parseHost db sc calls u h
    induction calls generalizing db u with
    | nil => exact ⟨u, h, by simp [recordClickN]⟩
    | cons c rest ih =>
      obtain ⟨d2, t2⟩ := c
      obtain ⟨u1, h1, h2, _⟩ := recordClick_step parseHost db sc d2 t2 u h
      obtain ⟨u2, h3, h4⟩ := ih (recordClick parseHost db sc d2 t2) u1 h1
      refine ⟨u2, by simpa [recordClickN] using h3, ?_⟩
      rw [h4, h2]
      simp
      omega

/-- C2 witness: one click on the fresh link "abc" raises its totalClicks from
0 to 1 and sets uniqueVisitors to the distinct masked addresses on file. -/
theorem recordEvent_totals_witness :
    ∃ u2, findUrl (recordClick (fun _ => none) abcDB "abc" ⟨"1.2.3.4", "", ""⟩ 1000).urls
        "abc" = some u2 ∧
      u2.analytics.totalClicks = abcUrl.analytics.totalClicks + 1 ∧
      u2.analytics.uniqueVisitors =
        (((recordClick (fun _ => none) abcDB "abc" ⟨"1.2.3.4", "", ""⟩ 1000).events.filter
            fun e => e.shortCode == "abc").map ClickEvent.anonymizedIp).dedup.length :=
  recordEvent_totals.1 (fun _ => none) abcDB "abc" ⟨"1.2.3.4", "", ""⟩ 1000 abcUrl (by decide)

/-- C5: provided the stored event count for the link does not exceed its
aggregated totalClicks (an invariant of reachable states: events are only
ever appended together with an increment, and retention only deletes events),
every successful recordClick leaves the aggregate with
uniqueVisitors less than or equal to totalClicks, topReferrers at most 10
entries long with non-increasing counts, clicksByDay at most 30 entries long
sorted descending by date, and re-establishes the event-count bound. -/
theorem recordEvent_invariants (parseHost : String → Option String) (db : DB) (sc : String)
    (d : ClickData) (now : Nat) (u : UrlDoc) (h : findUrl db.urls sc = some u)
    (hinv : (db.events.filter fun e => e.shortCode == sc).length ≤ u.analytics.totalClicks) :
    ∃ u2, findUrl (recordClick parseHost db sc d now).urls sc = some u2 ∧
      u2.analytics.uniqueVisitors ≤ u2.analytics.totalClicks ∧
      u2.analytics.topReferrers.length ≤ 10 ∧
      List.Sorted refDescByCount u2.analytics.topReferrers ∧
      u2.analytics.clicksByDay.length ≤ 30 ∧
      List.Sorted dayDescByDate u2.analytics.clicksByDay ∧
      ((recordClick parseHost db sc d now).events.filter
          fun e => e.shortCode == sc).length ≤ u2.analytics.totalClicks := by
  obtain ⟨u2, h1, h2, h3, h4, h5, h6⟩ := recordClick_step parseHost db sc d now u h
  have hflen : ((recordClick parseHost db sc d now).events.filter
      fun e => e.shortCode == sc).length =
      (db.events.filter fun e => e.shortCode == sc).length + 1 := by
    rw [h6]; simp
  have hdedup : (((recordClick parseHost db sc d now).events.filter
      fun e => e.shortCode == sc).map ClickEvent.anonymizedIp).dedup.length ≤
      ((recordClick parseHost db sc d now).events.filter
        fun e => e.shortCode == sc).length := by
    calc (((recordClick parseHost db sc d now).events.filter
        fun e => e.shortCode == sc).map ClickEvent.anonymizedIp).dedup.length
        ≤ (((recordClick parseHost db sc d now).events.filter
            fun e => e.shortCode == sc).map ClickEvent.anonymizedIp).length :=
          (List.dedup_sublist _).length_le
      _ = _ := List.length_map _ _
  refine ⟨u2, h1, ?_, ?_, ?_, ?_, ?_, ?_⟩
  · rw [h3, h2]; omega
  · rw [h4]; exact List.length_take_le 10 _
  · rw [h4]
    exact (List.sorted_insertionSort refDescByCount _).sublist (List.take_sublist _ _)
  · rw [h5]; exact List.length_take_le 30 _
  · rw [h5]
    exact (List.sorted_insertionSort dayDescByDate _).sublist (List.take_sublist _ _)
  · rw [h2]; omega

/-- C5 witness: the invariants hold after one click on the fresh link "abc". -/
theorem recordEvent_invariants_witness :
    ∃ u2, findUrl (recordClick (fun _ => none) abcDB "abc" ⟨"1.2.3.4", "", ""⟩ 1000).urls
        "abc" = some u2 ∧
      u2.analytics.uniqueVisitors ≤ u2.analytics.totalClicks ∧
      u2.analytics.topReferrers.length ≤ 10 ∧
      List.Sorted refDescByCount u2.analytics.topReferrers ∧
      u2.analytics.clicksByDay.length ≤ 30 ∧
      List.Sorted dayDescByDate u2.analytics.clicksByDay ∧
      ((recordClick (fun _ => none) abcDB "abc" ⟨"1.2.3.4", "", ""⟩ 1000).events.filter
          fun e => e.shortCode == "abc").length ≤ u2.analytics.totalClicks :=
  recordEvent_invariants (fun _ => none) abcDB "abc" ⟨"1.2.3.4", "", ""⟩ 1000 abcUrl
    (by decide) (by decide)

/-- Helper: the totalClicks reported by getUrlAnalytics for an existing link
is the number of stored events for the short code passing the range filter. -/
theorem getUrlAnalytics_totalClicks (db : DB) (sc : String) (u : UrlDoc)
    (startDate endDate : Option Nat) (h : findUrl db.urls sc = some u) :
    (getUrlAnalytics db sc startDate endDate).map AnalyticsResult.totalClicks =
      some ((db.events.filter
        fun e => e.shortCode == sc && inRange startDate endDate e.timestamp).length) := by
  simp only [getUrlAnalytics, h, Option.map_some]
  exact congrArg some ((List.perm_insertionSort evDescByTime _).length_eq)

/-- C6: with a time range, getUrlAnalytics filters events to occurredAt
within [startDate, endDate] with inclusive bounds and an absent bound
unbounded on that side; with only a boundary startDate it reports totalClicks
equal to the count of events at or after the boundary, and an unfiltered call
reports the full event count for the link. -/
theorem getLinkAnalytics_timeRange (db : DB) (sc : String) (u : UrlDoc) (b : Nat)
    (startDate endDate : Option Nat) (h : findUrl db.urls sc = some u) :
    ((getUrlAnalytics db sc startDate endDate).map AnalyticsResult.totalClicks =
      some ((db.events.filter
        fun e => e.shortCode == sc && inRange startDate endDate e.timestamp).length)) ∧
    (∀ s e ts, inRange (some s) (some e) ts = (decide (s ≤ ts) && decide (ts ≤ e))) ∧
    ((getUrlAnalytics db sc (some b) none).map AnalyticsResult.totalClicks =
      some ((db.events.filter
        fun e => e.shortCode == sc && decide (b ≤ e.timestamp)).length)) ∧
    ((getUrlAnalytics db sc none none).map AnalyticsResult.totalClicks =
      some ((db.events.filter fun e => e.shortCode == sc).length)) := by
  refine ⟨getUrlAnalytics_totalClicks db sc u startDate endDate h, fun s e ts => rfl, ?_, ?_⟩
  · rw [getUrlAnalytics_totalClicks db sc u (some b) none h]
    simp [inRange]
  · rw [getUrlAnalytics_totalClicks db sc u none none h]
    simp [inRange]

/-- C6 witness: with events at times 10 and 20 on link "abc", the boundary
query startDate = 20 counts one event while the unfiltered query counts two. -/
theorem getLinkAnalytics_timeRange_witness :
    ((getUrlAnalytics
        ⟨[abcUrl], [⟨"abc", 10, "a", "", "", ""⟩, ⟨"abc", 20, "b", "", "", ""⟩]⟩
        "abc" (some 20) none).map AnalyticsResult.totalClicks = some 1) ∧
    ((getUrlAnalytics
        ⟨[abcUrl], [⟨"abc", 10, "a", "", "", ""⟩, ⟨"abc", 20, "b", "", "", ""⟩]⟩
        "abc" none none).map AnalyticsResult.totalClicks = some 2) :=
  ⟨((getLinkAnalytics_timeRange
      ⟨[abcUrl], [⟨"abc", 10, "a", "", "", ""⟩, ⟨"abc", 20, "b", "", "", ""⟩]⟩
      "abc" abcUrl 20 none none (by decide)).2.2.1).trans (by decide),
   ((getLinkAnalytics_timeRange
      ⟨[abcUrl], [⟨"abc", 10, "a", "", "", ""⟩, ⟨"abc", 20, "b", "", "", ""⟩]⟩
      "abc" abcUrl 20 none none (by decide)).2.2.2).trans (by decide)⟩

/-- C7: recordClick never surfaces an error to its caller whatever faults its
persistence steps raise; the fallible body consults only the first aggregate
save attempt and the single retry attempt (the conflict is retried exactly
once, never more); a version conflict followed by a clean retry produces the
same state as a faultless run; and a failure remaining after the retry leaves
the body with that error while the caller still observes a normal return with
the state persisted so far (logged and swallowed, not propagated). -/
theorem recordEvent_failureContainment :
    (∀ (parseHost : String → Option String) (f : Faults) (db : DB) (sc : String)
        (d : ClickData) (now : Nat),
      ∃ db2, recordClickTop parseHost f db sc d now = Except.ok db2) ∧
    (∀ (parseHost : String → Option String) (f g : Faults) (db : DB) (sc : String)
        (d : ClickData) (now : Nat), f.eventSave = g.eventSave →
      f.aggSave 0 = g.aggSave 0 → f.aggSave 1 = g.aggSave 1 →
      recordClickF parseHost f db sc d now = recordClickF parseHost g db sc d now) ∧
    (∀ (parseHost : String → Option String) (f : Faults) (db : DB) (sc : String)
        (d : ClickData) (now : Nat), f.eventSave = none →
      f.aggSave 0 = some JsErr.versionErr → f.aggSave 1 = none →
      recordClickF parseHost f db sc d now = recordClickF parseHost noFaults db sc d now) ∧
    (∀ (parseHost : String → Option String) (f : Faults) (db : DB) (sc : String)
        (d : ClickData) (now : Nat) (e : JsErr) (u : UrlDoc), findUrl db.urls sc = some u →
      f.eventSave = none → f.aggSave 0 = some JsErr.versionErr → f.aggSave 1 = some e →
      (recordClickF parseHost f db sc d now).2 = some e ∧
      recordClickTop parseHost f db sc d now =
        Except.ok (recordClickF parseHost f db sc d now).1) := by
  refine ⟨?_, ?_, ?_, ?_⟩
  · intro parseHost f db sc d now
    rcases hr : recordClickF parseHost f db sc d now with ⟨db2, err⟩
    cases err with
    | none => exact ⟨db2, by simp [recordClickTop, hr]⟩
    | some e => exact ⟨db2, by simp [recordClickTop, hr]⟩
  · intro parseHost f g db sc d now h1 h2 h3
    simp only [recordClickF, updateAggregatedStatsF, h1, h2, h3]
  · intro parseHost f db sc d now h1 h2 h3
    cases hu : findUrl db.urls sc with
    | none => simp only [recordClickF, updateAggregatedStatsF, h1, h2, h3, noFaults, hu]
    | some u => simp only [recordClickF, updateAggregatedStatsF, h1, h2, h3, noFaults, hu]
  · intro parseHost f db sc d now e u hu h1 h2 h3
    have hbody : recordClickF parseHost f db sc d now =
        (⟨db.urls, db.events ++ [⟨sc, now, anonymizeIp d.ip, (parseUserAgent d.userAgent).1,
          (parseUserAgent d.userAgent).2, extractReferrer parseHost d.referrer⟩]⟩,
         some e) := by
      simp only [recordClickF, updateAggregatedStatsF, h1, h2, h3, hu]
    rw [hbody]
    exact ⟨rfl, by simp [recordClickTop, hbody]⟩

/-- C7 witness: a version conflict whose retry fails with another error
leaves the body with that error, yet the caller sees a normal return. -/
theorem recordEvent_failureContainment_witness :
    (recordClickF (fun _ => none)
        ⟨none, fun n => if n = 0 then some JsErr.versionErr else some (JsErr.otherErr "x")⟩
        abcDB "abc" ⟨"1.2.3.4", "", ""⟩ 5).2 = some (JsErr.otherErr "x") ∧
    recordClickTop (fun _ => none)
        ⟨none, fun n => if n = 0 then some JsErr.versionErr else some (JsErr.otherErr "x")⟩
        abcDB "abc" ⟨"1.2.3.4", "", ""⟩ 5 =
      Except.ok (recordClickF (fun _ => none)
        ⟨none, fun n => if n = 0 then some JsErr.versionErr else some (JsErr.otherErr "x")⟩
        abcDB "abc" ⟨"1.2.3.4", "", ""⟩ 5).1 :=
  recordEvent_failureContainment.2.2.2 (fun _ => none)
    ⟨none, fun n => if n = 0 then some JsErr.versionErr else some (JsErr.otherErr "x")⟩
    abcDB "abc" ⟨"1.2.3.4", "", ""⟩ 5 (JsErr.otherErr "x") abcUrl (by decide) rfl rfl rfl

/-- C9 counterexample: with 101 active links, a caller-supplied limit of 101
is honored as given — the popular-links route returns 101 entries, so the
limit is not clamped to a maximum of 100. -/
theorem popularLinks_no_clamp_counterexample :
    (popularRoute manyUrlsDB (some 101)).length = 101 := by decide

/-- C9 amended: getPopularUrls returns only links in the active state,
ordered descending by the aggregated totalClicks, limited to the supplied
limit, and the route defaults an absent limit parameter to 10; the
caller-supplied limit is passed through unclamped. -/
theorem popularLinks_query (db : DB) (limit : Nat) (hl : 1 ≤ limit) :
    (getPopularUrls db limit).length ≤ limit ∧
    List.Pairwise (fun a b : PopularEntry => b.totalClicks ≤ a.totalClicks)
      (getPopularUrls db limit) ∧
    (∀ p ∈ getPopularUrls db limit, ∃ u2, u2 ∈ db.urls ∧ u2.isActive = true ∧
      p = ⟨u2.shortCode, u2.originalUrl, u2.clicks, u2.analytics.totalClicks,
           u2.analytics.uniqueVisitors, u2.createdAt⟩) ∧
    popularRoute db none = getPopularUrls db 10 := by
  have hl0 : limit ≠ 0 := Nat.one_le_iff_ne_zero.mp hl
  refine ⟨?_, ?_, ?_, rfl⟩
  · simp only [getPopularUrls, if_neg hl0, List.length_map, List.length_take]
    exact Nat.min_le_left _ _
  · simp only [getPopularUrls, if_neg hl0]
    refine List.Pairwise.map _ (fun a b hab => hab) ?_
    exact (List.sorted_insertionSort urlDescByClicks _).sublist (List.take_sublist _ _)
  · intro p hp
    simp only [getPopularUrls, if_neg hl0, List.mem_map] at hp
    obtain ⟨u2, hu2, rfl⟩ := hp
    have hmem2 : u2 ∈ List.insertionSort urlDescByClicks
        (db.urls.filter fun u => u.isActive) := (List.take_sublist _ _).subset hu2
    have hmem : u2 ∈ db.urls.filter fun u => u.isActive := by
      rwa [List.mem_insertionSort] at hmem2
    exact ⟨u2, (List.mem_filter.mp hmem).1, (List.mem_filter.mp hmem).2, rfl⟩

/-- C9 witness: the amended properties at a concrete database and limit. -/
theorem popularLinks_query_witness :
    (getPopularUrls manyUrlsDB 5).length ≤ 5 ∧
    popularRoute manyUrlsDB none = getPopularUrls manyUrlsDB 10 :=
  ⟨(popularLinks_query manyUrlsDB 5 (by decide)).1,
   (popularLinks_query manyUrlsDB 5 (by decide)).2.2.2⟩
